import Mathlib

/-!
# Verification of the triton-rs kernel-cache resolver

A shallow embedding of `src/lib.rs` of the `triton-rs` repository: the
lazily-initialized `TRITON_CACHE` root, the glob-based artifact discovery
function `find_ext`, the accessors `TritonKernel::{metadata, cubin, ptx}`,
and the serde-decoded `TritonMetadata` record with its derived `target`
accessor.

Modelling conventions:
* Filesystem paths are lists of components (`List String`).
* The filesystem visible to a call is passed explicitly: a list of glob
  enumeration entries (`Except` values, since the `glob` iterator yields
  `Result<PathBuf, GlobError>`) together with a content map from paths to
  already-parsed JSON documents.  Panics (`assert!`, `expect`, `unwrap`,
  `panic!`) are modelled as `Except.error`.
* JSON documents are modelled at the `serde_json::Value` level by the
  inductive `Json` below; numbers are integers (no claim concerns floats).
-/

set_option autoImplicit false

namespace TritonRs

/-- JSON values, modelling `serde_json::Value` restricted to integer
numbers (the metadata schema only uses integers, booleans, strings,
arrays and objects). An object is an ordered association list. -/
inductive Json where
  | null : Json
  | bool (b : Bool) : Json
  | num (n : Int) : Json
  | str (s : String) : Json
  | arr (xs : List Json) : Json
  | obj (fields : List (String × Json)) : Json

/-- The decoded metadata record, field for field the Rust struct
`TritonMetadata` of `src/lib.rs` (`Vec<Value>` becomes `List Json`,
`u32` becomes `Nat` with a range check in the decoder, `Option<T>`
becomes `Option`). -/
structure TritonMetadata where
  target : List Json
  num_warps : Nat
  num_ctas : Nat
  num_stages : Nat
  cluster_dims : List Nat
  ptx_version : Option Nat
  enable_warp_specialization : Bool
  enable_persistent : Bool
  optimize_epilogue : Bool
  enable_fp_fusion : Bool
  allow_fp8e4nv : Bool
  max_num_imprecise_acc_default : Nat
  extern_libs : Option (List String)
  debug : Option Bool
  AMDGCN_ENABLE_DUMP : Bool
  DISABLE_FAST_REDUCTION : Bool
  DISABLE_MMA_V3 : Bool
  ENABLE_TMA : Bool
  LLVM_IR_ENABLE_DUMP : Bool
  MLIR_ENABLE_DUMP : Bool
  TRITON_DISABLE_LINE_INFO : Bool
  ids_of_folded_args : List Nat
  ids_of_tensormaps : Option (List Nat)
  shared : Nat
  name : String

/-- First value stored under a key in the field list of a JSON object
(serde reads fields from the document in order; the schema has no
duplicate keys in well-formed documents). -/
def lookupField : List (String × Json) → String → Option Json
  | [], _ => none
  | (k, v) :: rest, key => if k == key then some v else lookupField rest key

/-- Decode a JSON value as a `bool`, as serde does for a `bool` field. -/
def asBool : Json → Except String Bool
  | .bool b => .ok b
  | _ => .error "invalid type: expected a boolean"

/-- Decode a JSON value as a `u32`, as serde does: an integer in
`[0, 2^32)`; anything else is a type/value error. -/
def asU32 : Json → Except String Nat
  | .num n => if 0 ≤ n ∧ n < 4294967296 then .ok n.toNat
              else .error "invalid value: integer out of range for u32"
  | _ => .error "invalid type: expected u32"

/-- Decode a JSON value as a `String`. -/
def asString : Json → Except String String
  | .str s => .ok s
  | _ => .error "invalid type: expected a string"

/-- Decode a JSON value as a `Vec<Value>`: any array, elements kept raw. -/
def asValueList : Json → Except String (List Json)
  | .arr xs => .ok xs
  | _ => .error "invalid type: expected a sequence"

/-- Decode a JSON value as a `Vec<u32>`. -/
def asU32List : Json → Except String (List Nat)
  | .arr xs => xs.mapM asU32
  | _ => .error "invalid type: expected a sequence"

/-- Decode a JSON value as a `Vec<String>`. -/
def asStringList : Json → Except String (List String)
  | .arr xs => xs.mapM asString
  | _ => .error "invalid type: expected a sequence"

/-- A required struct field: the derived serde deserializer fails with a
`missing field` diagnostic when the key is absent. -/
def reqField {α : Type} (o : List (String × Json)) (key : String)
    (dec : Json → Except String α) : Except String α :=
  match lookupField o key with
  | some v => dec v
  | none => .error ("missing field " ++ key)

/-- An `Option<T>` struct field: the derived serde deserializer maps an
absent key, or an explicit `null`, to `None`. -/
def optField {α : Type} (o : List (String × Json)) (key : String)
    (dec : Json → Except String α) : Except String (Option α) :=
  match lookupField o key with
  | none => .ok none
  | some .null => .ok none
  | some v => (dec v).map some

/-- The derived `Deserialize` for `TritonMetadata` (strict on required
fields, `Option` fields optional, a non-object document is a type
error). Field order follows the Rust struct declaration. -/
def decodeTritonMetadata : Json → Except String TritonMetadata
  | .obj o => do
    let target ← reqField o "target" asValueList
    let num_warps ← reqField o "num_warps" asU32
    let num_ctas ← reqField o "num_ctas" asU32
    let num_stages ← reqField o "num_stages" asU32
    let cluster_dims ← reqField o "cluster_dims" asU32List
    let ptx_version ← optField o "ptx_version" asU32
    let enable_warp_specialization ← reqField o "enable_warp_specialization" asBool
    let enable_persistent ← reqField o "enable_persistent" asBool
    let optimize_epilogue ← reqField o "optimize_epilogue" asBool
    let enable_fp_fusion ← reqField o "enable_fp_fusion" asBool
    let allow_fp8e4nv ← reqField o "allow_fp8e4nv" asBool
    let max_num_imprecise_acc_default ← reqField o "max_num_imprecise_acc_default" asU32
    let extern_libs ← optField o "extern_libs" asStringList
    let debug ← optField o "debug" asBool
    let amdgcn ← reqField o "AMDGCN_ENABLE_DUMP" asBool
    let dfr ← reqField o "DISABLE_FAST_REDUCTION" asBool
    let dmma ← reqField o "DISABLE_MMA_V3" asBool
    let tma ← reqField o "ENABLE_TMA" asBool
    let llvmDump ← reqField o "LLVM_IR_ENABLE_DUMP" asBool
    let mlirDump ← reqField o "MLIR_ENABLE_DUMP" asBool
    let lineInfo ← reqField o "TRITON_DISABLE_LINE_INFO" asBool
    let ids_of_folded_args ← reqField o "ids_of_folded_args" asU32List
    let ids_of_tensormaps ← optField o "ids_of_tensormaps" asU32List
    let shared ← reqField o "shared" asU32
    let name ← reqField o "name" asString
    pure { target := target, num_warps := num_warps, num_ctas := num_ctas,
           num_stages := num_stages, cluster_dims := cluster_dims,
           ptx_version := ptx_version,
           enable_warp_specialization := enable_warp_specialization,
           enable_persistent := enable_persistent,
           optimize_epilogue := optimize_epilogue,
           enable_fp_fusion := enable_fp_fusion,
           allow_fp8e4nv := allow_fp8e4nv,
           max_num_imprecise_acc_default := max_num_imprecise_acc_default,
           extern_libs := extern_libs, debug := debug,
           AMDGCN_ENABLE_DUMP := amdgcn, DISABLE_FAST_REDUCTION := dfr,
           DISABLE_MMA_V3 := dmma, ENABLE_TMA := tma,
           LLVM_IR_ENABLE_DUMP := llvmDump, MLIR_ENABLE_DUMP := mlirDump,
           TRITON_DISABLE_LINE_INFO := lineInfo,
           ids_of_folded_args := ids_of_folded_args,
           ids_of_tensormaps := ids_of_tensormaps,
           shared := shared, name := name }
  | _ => .error "invalid type: expected struct TritonMetadata"

/-- The keys the derived deserializer requires to be present. -/
def requiredKeys : List String :=
  ["target", "num_warps", "num_ctas", "num_stages", "cluster_dims",
   "enable_warp_specialization", "enable_persistent", "optimize_epilogue",
   "enable_fp_fusion", "allow_fp8e4nv", "max_num_imprecise_acc_default",
   "AMDGCN_ENABLE_DUMP", "DISABLE_FAST_REDUCTION", "DISABLE_MMA_V3",
   "ENABLE_TMA", "LLVM_IR_ENABLE_DUMP", "MLIR_ENABLE_DUMP",
   "TRITON_DISABLE_LINE_INFO", "ids_of_folded_args", "shared", "name"]

/-- All keys of the schema, required and optional. -/
def schemaKeys : List String :=
  requiredKeys ++ ["ptx_version", "extern_libs", "debug", "ids_of_tensormaps"]

/-! ## Glob pattern validity and matching -/

/-- Scanner state for glob pattern validation: outside any character
class, just after an opening bracket, just after the leading
negation mark of the bracket, or inside a class body looking for the closing bracket. -/
inductive ClassScan where
  | normal : ClassScan
  | opened : ClassScan
  | banged : ClassScan
  | inClass : ClassScan
deriving DecidableEq

/-- One step of the character-class scanner. After an opening bracket the
next character is either the negation mark or the (always consumed) first
class member; the first candidate closing bracket after that member ends
the class. -/
def patternStep (st : ClassScan) (c : Char) : ClassScan :=
  match st with
  | .normal => if c = '[' then .opened else .normal
  | .opened => if c = '!' then .banged else .inClass
  | .banged => .inClass
  | .inClass => if c = ']' then .normal else .inClass

/-- Modelled from the `glob` crate (a dependency, not part of `src/`):
`Pattern::new` rejects a pattern whose character class (opened by an
unescaped bracket) is never terminated; this scanner captures exactly
that termination rule and accepts every other construct. Other pattern
errors of the crate (such as misplaced recursive wildcards) are not
modelled since no claim depends on them. -/
def patternValid (s : String) : Bool :=
  match s.data.foldl patternStep .normal with
  | .normal => true
  | _ => false

/-- The glob pattern string `find_ext` builds:
`format!("{}/**/{}.{}", *TRITON_CACHE, kernel_name, ext)`. -/
def globPatternString (cache kernel_name ext : String) : String :=
  cache ++ "/**/" ++ kernel_name ++ "." ++ ext

/-- Split a path string into its slash-separated components (the
component view the glob walker takes of the cache-root prefix of the
pattern). Agrees with splitting on the slash character. -/
def splitSlashAux : List Char → List Char → List String
  | acc, [] => [String.mk acc.reverse]
  | acc, c :: rest =>
      if c = '/' then String.mk acc.reverse :: splitSlashAux [] rest
      else splitSlashAux (c :: acc) rest

/-- Components of a path string. -/
def pathComponents (s : String) : List String :=
  splitSlashAux [] s.data

/-- Matching of the pattern `cache/**/<fname>` against a path (a list of
components): the path starts with the cache-root components, ends with
the file name, and the recursive wildcard absorbs the (possibly empty)
components in between. Faithful for kernel names and extensions that
contain no glob metacharacters, which is the regime of every claim about
successful discovery. -/
def globMatch (root : List String) (fname : String) (p : List String) : Bool :=
  decide (root.length < p.length) && (p.take root.length == root)
    && (p.getLast? == some fname)

/-- Artifact discovery, `find_ext` of `src/lib.rs`. The filesystem is
passed explicitly as the glob enumeration stream: readable matching
paths appear as `.ok`, entries the walker cannot read/classify as
`.error` (the `Result` items of the iterator). A pattern the glob crate
cannot parse makes the call panic (`expect("Unable to parse glob")`),
modelled as an overall `Except.error`; per-entry errors are printed and
skipped, every `Ok` path is pushed in enumeration order. -/
def find_ext (fs : List (Except String (List String))) (cache : String)
    (kernel_name ext : String) : Except String (List (List String)) :=
  if patternValid (globPatternString cache kernel_name ext) then
    .ok (fs.filterMap fun e =>
      match e with
      | .ok p =>
          if globMatch (pathComponents cache) (kernel_name ++ "." ++ ext) p
          then some p else none
      | .error _ => none)
  else .error "Unable to parse glob"

/-! ## Cache root resolution (the `lazy_static` block) -/

/-- The initializer body of the `TRITON_CACHE` `lazy_static`: the
environment override used verbatim when set, otherwise
`<home>/.triton/cache`; `dirs::home_dir().unwrap()` panics (`none`)
when the home directory cannot be determined. -/
def cacheFirstAccess (envTritonCacheDir homeDir : Option String) : Option String :=
  match envTritonCacheDir with
  | some val => some val
  | none =>
    match homeDir with
    | some home => some (home ++ "/.triton/cache")
    | none => none

/-- One access to the `TRITON_CACHE` lazy static: `cell` is the
one-time-initialization cell (empty before first access). An access
returns the dereferenced value together with the updated cell; on first
access with no override and no home directory the process aborts
(`none`). -/
def cacheAccess (envTritonCacheDir homeDir : Option String)
    (cell : Option String) : Option (String × Option String) :=
  match cell with
  | some v => some (v, some v)
  | none => (cacheFirstAccess envTritonCacheDir homeDir).map fun v => (v, some v)

/-! ## The kernel handle and its accessors -/

/-- The filesystem a call observes: the glob enumeration entries under
the cache root and the (already text-parsed) JSON content of each file.
`content` is total: a file read failure would be an `unwrap` panic in
the source, and no claim concerns it. -/
structure FileSystem where
  entries : List (Except String (List String))
  content : List String → Json

/-- Rust struct `TritonKernel` of `src/lib.rs`. -/
structure TritonKernel where
  name : String

/-- Constructor `TritonKernel::new`. -/
def TritonKernel.new (name : String) : TritonKernel :=
  { name := name }

/-- Method `TritonKernel::metadata`: discovers the `json` artifact, asserts
exactly one match (`assert!(paths.len() == 1)`, a panic otherwise),
reads it and decodes it with serde (a decode failure is
`panic!("{:?}", e)`). Panics are modelled as `Except.error`. -/
def TritonKernel.metadata (fs : FileSystem) (cache : String)
    (k : TritonKernel) : Except String TritonMetadata := do
  let paths ← find_ext fs.entries cache k.name "json"
  match paths with
  | [p] => decodeTritonMetadata (fs.content p)
  | _ => .error "assertion failed: paths.len() == 1"

/-- Method `TritonKernel::cubin`: forwards to discovery with the `cubin`
extension. -/
def TritonKernel.cubin (fs : FileSystem) (cache : String)
    (k : TritonKernel) : Except String (List (List String)) :=
  find_ext fs.entries cache k.name "cubin"

/-- Method `TritonKernel::ptx`: forwards to discovery with the `ptx`
extension. -/
def TritonKernel.ptx (fs : FileSystem) (cache : String)
    (k : TritonKernel) : Except String (List (List String)) :=
  find_ext fs.entries cache k.name "ptx"

/-! ## The derived target accessor -/

/-- JSON string escaping for rendering, as `serde_json` emits it for the
characters that occur in metadata documents (quote, backslash and the
common control characters; other characters are emitted verbatim). -/
def escapeChar (c : Char) : String :=
  if c = '"' then "\\\""
  else if c = '\\' then "\\\\"
  else if c = '\n' then "\\n"
  else if c = '\r' then "\\r"
  else if c = '\t' then "\\t"
  else String.singleton c

/-- Render a JSON string literal with surrounding quotes. -/
def renderString (s : String) : String :=
  "\"" ++ String.join (s.data.map escapeChar) ++ "\""

mutual
/-- Compact JSON rendering, modelling `serde_json::Value::to_string()`
(`Display` for `Value`): no whitespace, fields and elements separated by
commas. -/
def renderJson : Json → String
  | .null => "null"
  | .bool true => "true"
  | .bool false => "false"
  | .num n => toString n
  | .str s => renderString s
  | .arr xs => "[" ++ renderJsonList xs ++ "]"
  | .obj fields => "\x7b" ++ renderJsonObj fields ++ "\x7d"

/-- Comma-separated rendering of array elements. -/
def renderJsonList : List Json → String
  | [] => ""
  | [x] => renderJson x
  | x :: y :: rest => renderJson x ++ "," ++ renderJsonList (y :: rest)

/-- Comma-separated rendering of object fields. -/
def renderJsonObj : List (String × Json) → String
  | [] => ""
  | [(k, v)] => renderString k ++ ":" ++ renderJson v
  | (k, v) :: f :: rest =>
      renderString k ++ ":" ++ renderJson v ++ "," ++ renderJsonObj (f :: rest)
end

/-- Model of `str::replace` at the double-quote pattern: every
double-quote character removed. -/
def removeQuotes (s : String) : String :=
  String.mk (s.data.filter fun c => c != '"')

/-- Model of `Vec<String>::join` with the empty separator: in-order
concatenation. -/
def joinStrings : List String → String
  | [] => ""
  | s :: rest => s ++ joinStrings rest

/-- Method `TritonMetadata::target()` of `src/lib.rs`: render each stored value
to text, concatenate, and strip double quotes. (Named `targetText` here
because the Lean structure already uses `target` for the field the Rust
method shadows.) The receiver is taken immutably, as in `&self`. -/
def TritonMetadata.targetText (m : TritonMetadata) : String :=
  removeQuotes (joinStrings (m.target.map renderJson))

/-- The reading the spec gives of the accessor: each element of the stored
sequence rendered to text with its double quotes removed, the results
concatenated in order into a single token. -/
def TritonMetadata.targetTextSpec (m : TritonMetadata) : String :=
  joinStrings (m.target.map fun v => removeQuotes (renderJson v))

/-! ## Sample documents used in concrete evaluations -/

/-- A metadata document holding every required field (with
representative well-typed values), none of the optional ones, and the
given value for `cluster_dims`. -/
def docWithDims (dims : List Json) : List (String × Json) :=
  [("target", .arr [.str "cuda", .num 90]),
   ("num_warps", .num 4), ("num_ctas", .num 1), ("num_stages", .num 3),
   ("cluster_dims", .arr dims),
   ("enable_warp_specialization", .bool false),
   ("enable_persistent", .bool false),
   ("optimize_epilogue", .bool false),
   ("enable_fp_fusion", .bool true),
   ("allow_fp8e4nv", .bool true),
   ("max_num_imprecise_acc_default", .num 0),
   ("AMDGCN_ENABLE_DUMP", .bool false),
   ("DISABLE_FAST_REDUCTION", .bool false),
   ("DISABLE_MMA_V3", .bool false),
   ("ENABLE_TMA", .bool false),
   ("LLVM_IR_ENABLE_DUMP", .bool false),
   ("MLIR_ENABLE_DUMP", .bool false),
   ("TRITON_DISABLE_LINE_INFO", .bool false),
   ("ids_of_folded_args", .arr []),
   ("shared", .num 1024),
   ("name", .str "add_kernel_0d1d2d3de")]

/-- The record `docWithDims` decodes to, as a function of the decoded
`cluster_dims` value. -/
def metadataDims (ds : List Nat) : TritonMetadata :=
  { target := [.str "cuda", .num 90], num_warps := 4, num_ctas := 1,
    num_stages := 3, cluster_dims := ds, ptx_version := none,
    enable_warp_specialization := false, enable_persistent := false,
    optimize_epilogue := false, enable_fp_fusion := true,
    allow_fp8e4nv := true, max_num_imprecise_acc_default := 0,
    extern_libs := none, debug := none, AMDGCN_ENABLE_DUMP := false,
    DISABLE_FAST_REDUCTION := false, DISABLE_MMA_V3 := false,
    ENABLE_TMA := false, LLVM_IR_ENABLE_DUMP := false,
    MLIR_ENABLE_DUMP := false, TRITON_DISABLE_LINE_INFO := false,
    ids_of_folded_args := [], ids_of_tensormaps := none, shared := 1024,
    name := "add_kernel_0d1d2d3de" }

/-- A document with all required fields, no optional fields, and a
three-element `cluster_dims`. -/
def requiredDoc : List (String × Json) :=
  docWithDims [.num 1, .num 1, .num 1]

/-- The record `requiredDoc` decodes to. -/
def requiredMetadata : TritonMetadata :=
  metadataDims [1, 1, 1]

/-- Document `requiredDoc` with the required field `shared` removed. -/
def docNoShared : List (String × Json) :=
  requiredDoc.filter fun q => q.1 != "shared"

/-! ## Helper lemmas -/

theorem except_bind_ok {ε α β : Type} {x : Except ε α} {f : α → Except ε β}
    {b : β} (h : x >>= f = .ok b) : ∃ a, x = .ok a ∧ f a = .ok b := by
  cases x with
  | error e => exact Except.noConfusion h
  | ok a => exact ⟨a, rfl, h⟩

theorem reqField_ok_isSome {α : Type} {o : List (String × Json)} {k : String}
    {d : Json → Except String α} {a : α} (h : reqField o k d = .ok a) :
    (lookupField o k).isSome = true := by
  unfold reqField at h
  cases hl : lookupField o k with
  | none => rw [hl] at h; exact Except.noConfusion h
  | some v => rfl

theorem optField_of_lookup_none {α : Type} {o : List (String × Json)}
    {k : String} (d : Json → Except String α) (h : lookupField o k = none) :
    optField o k d = .ok none := by
  unfold optField
  rw [h]

theorem lookupField_append_of_none {extras : List (String × Json)}
    {k : String} (h : lookupField extras k = none)
    (o : List (String × Json)) :
    lookupField (o ++ extras) k = lookupField o k := by
  induction o with
  | nil => simpa [lookupField] using h
  | cons q rest ih =>
      obtain ⟨k₁, v⟩ := q
      by_cases hk : k₁ == k
      · simp [lookupField, hk]
      · simp [lookupField, hk, ih]

theorem lookupField_eq_none_of_keys {l : List (String × Json)} {k : String}
    (h : ∀ q ∈ l, q.1 ≠ k) : lookupField l k = none := by
  induction l with
  | nil => rfl
  | cons q rest ih =>
      obtain ⟨k₁, v⟩ := q
      have hne : k₁ ≠ k := h (k₁, v) (List.mem_cons_self _ _)
      simp only [lookupField, beq_iff_eq, if_neg hne]
      exact ih fun q hq => h q (List.mem_cons_of_mem _ hq)

theorem decode_ok_fields {o : List (String × Json)} {m : TritonMetadata}
    (h : decodeTritonMetadata (.obj o) = .ok m) :
    (∀ k ∈ requiredKeys, (lookupField o k).isSome = true)
    ∧ optField o "ptx_version" asU32 = .ok m.ptx_version
    ∧ optField o "extern_libs" asStringList = .ok m.extern_libs
    ∧ optField o "debug" asBool = .ok m.debug
    ∧ optField o "ids_of_tensormaps" asU32List = .ok m.ids_of_tensormaps := by
  simp only [decodeTritonMetadata] at h
  obtain ⟨v1, h1, h⟩ := except_bind_ok h
  obtain ⟨v2, h2, h⟩ := except_bind_ok h
  obtain ⟨v3, h3, h⟩ := except_bind_ok h
  obtain ⟨v4, h4, h⟩ := except_bind_ok h
  obtain ⟨v5, h5, h⟩ := except_bind_ok h
  obtain ⟨v6, h6, h⟩ := except_bind_ok h
  obtain ⟨v7, h7, h⟩ := except_bind_ok h
  obtain ⟨v8, h8, h⟩ := except_bind_ok h
  obtain ⟨v9, h9, h⟩ := except_bind_ok h
  obtain ⟨v10, h10, h⟩ := except_bind_ok h
  obtain ⟨v11, h11, h⟩ := except_bind_ok h
  obtain ⟨v12, h12, h⟩ := except_bind_ok h
  obtain ⟨v13, h13, h⟩ := except_bind_ok h
  obtain ⟨v14, h14, h⟩ := except_bind_ok h
  obtain ⟨v15, h15, h⟩ := except_bind_ok h
  obtain ⟨v16, h16, h⟩ := except_bind_ok h
  obtain ⟨v17, h17, h⟩ := except_bind_ok h
  obtain ⟨v18, h18, h⟩ := except_bind_ok h
  obtain ⟨v19, h19, h⟩ := except_bind_ok h
  obtain ⟨v20, h20, h⟩ := except_bind_ok h
  obtain ⟨v21, h21, h⟩ := except_bind_ok h
  obtain ⟨v22, h22, h⟩ := except_bind_ok h
  obtain ⟨v23, h23, h⟩ := except_bind_ok h
  obtain ⟨v24, h24, h⟩ := except_bind_ok h
  obtain ⟨v25, h25, h⟩ := except_bind_ok h
  simp only [pure, Except.pure, Except.ok.injEq] at h
  subst h
  refine ⟨?_, h6, h13, h14, h23⟩
  intro k hk
  simp only [requiredKeys] at hk
  fin_cases hk
  · exact reqField_ok_isSome h1
  · exact reqField_ok_isSome h2
  · exact reqField_ok_isSome h3
  · exact reqField_ok_isSome h4
  · exact reqField_ok_isSome h5
  · exact reqField_ok_isSome h7
  · exact reqField_ok_isSome h8
  · exact reqField_ok_isSome h9
  · exact reqField_ok_isSome h10
  · exact reqField_ok_isSome h11
  · exact reqField_ok_isSome h12
  · exact reqField_ok_isSome h15
  · exact reqField_ok_isSome h16
  · exact reqField_ok_isSome h17
  · exact reqField_ok_isSome h18
  · exact reqField_ok_isSome h19
  · exact reqField_ok_isSome h20
  · exact reqField_ok_isSome h21
  · exact reqField_ok_isSome h22
  · exact reqField_ok_isSome h24
  · exact reqField_ok_isSome h25

theorem decode_congr {o₁ o₂ : List (String × Json)}
    (h : ∀ k ∈ schemaKeys, lookupField o₁ k = lookupField o₂ k) :
    decodeTritonMetadata (.obj o₁) = decodeTritonMetadata (.obj o₂) := by
  have e1 := h "target" (by decide)
  have e2 := h "num_warps" (by decide)
  have e3 := h "num_ctas" (by decide)
  have e4 := h "num_stages" (by decide)
  have e5 := h "cluster_dims" (by decide)
  have e6 := h "ptx_version" (by decide)
  have e7 := h "enable_warp_specialization" (by decide)
  have e8 := h "enable_persistent" (by decide)
  have e9 := h "optimize_epilogue" (by decide)
  have e10 := h "enable_fp_fusion" (by decide)
  have e11 := h "allow_fp8e4nv" (by decide)
  have e12 := h "max_num_imprecise_acc_default" (by decide)
  have e13 := h "extern_libs" (by decide)
  have e14 := h "debug" (by decide)
  have e15 := h "AMDGCN_ENABLE_DUMP" (by decide)
  have e16 := h "DISABLE_FAST_REDUCTION" (by decide)
  have e17 := h "DISABLE_MMA_V3" (by decide)
  have e18 := h "ENABLE_TMA" (by decide)
  have e19 := h "LLVM_IR_ENABLE_DUMP" (by decide)
  have e20 := h "MLIR_ENABLE_DUMP" (by decide)
  have e21 := h "TRITON_DISABLE_LINE_INFO" (by decide)
  have e22 := h "ids_of_folded_args" (by decide)
  have e23 := h "ids_of_tensormaps" (by decide)
  have e24 := h "shared" (by decide)
  have e25 := h "name" (by decide)
  simp only [decodeTritonMetadata, reqField, optField, e1, e2, e3, e4, e5,
    e6, e7, e8, e9, e10, e11, e12, e13, e14, e15, e16, e17, e18, e19, e20,
    e21, e22, e23, e24, e25]

/-! ## Claim theorems -/

/-- C1: `TritonKernel::metadata` succeeds only when artifact discovery
for the `json` extension returns exactly one path; any discovery result
with zero or with two or more matches makes the call a hard failure
(the `assert!(paths.len() == 1)` panic) and no metadata record is
returned. -/
theorem metadata_requires_unique_artifact (fs : FileSystem) (cache : String)
    (k : TritonKernel) :
    (∀ paths, find_ext fs.entries cache k.name "json" = .ok paths →
        paths.length ≠ 1 → ∃ e, TritonKernel.metadata fs cache k = .error e)
    ∧ (∀ m, TritonKernel.metadata fs cache k = .ok m →
        ∃ p, find_ext fs.entries cache k.name "json" = .ok [p]) := by
  constructor
  · intro paths hp hlen
    unfold TritonKernel.metadata
    rw [hp]
    rcases paths with _ | ⟨p, _ | ⟨q, rest⟩⟩
    · exact ⟨_, rfl⟩
    · exact absurd rfl hlen
    · exact ⟨_, rfl⟩
  · intro m hm
    unfold TritonKernel.metadata at hm
    obtain ⟨paths, hp, hm⟩ := except_bind_ok hm
    rcases paths with _ | ⟨p, _ | ⟨q, rest⟩⟩
    · exact Except.noConfusion hm
    · exact ⟨p, hp⟩
    · exact Except.noConfusion hm

/-- Witness for C1: an empty cache gives zero `json` matches, and
`metadata` is a hard failure there. -/
theorem metadata_requires_unique_artifact_witness :
    find_ext (FileSystem.mk [] fun _ => Json.null).entries
        "/home/user/.triton/cache" (TritonKernel.mk "add_kernel").name "json"
      = .ok []
    ∧ ∃ e, TritonKernel.metadata (FileSystem.mk [] fun _ => Json.null)
        "/home/user/.triton/cache" (TritonKernel.mk "add_kernel") = .error e :=
  ⟨rfl, (metadata_requires_unique_artifact (FileSystem.mk [] fun _ => Json.null)
      "/home/user/.triton/cache" (TritonKernel.mk "add_kernel")).1 [] rfl
      (by decide)⟩

/-- C2: cache-root resolution uses the environment override verbatim
when set, otherwise `<home>/.triton/cache`; with neither available the
first access fails fatally; and once the cell is initialized every
subsequent access returns the same value regardless of the then-current
environment. -/
theorem cache_root_resolution :
    (∀ v home, cacheAccess (some v) home none = some (v, some v))
    ∧ (∀ home, cacheAccess none (some home) none
        = some (home ++ "/.triton/cache", some (home ++ "/.triton/cache")))
    ∧ cacheAccess none none none = none
    ∧ (∀ envNow homeNow v, cacheAccess envNow homeNow (some v)
        = some (v, some v)) :=
  ⟨fun _ _ => rfl, fun _ => rfl, rfl, fun _ _ _ => rfl⟩

/-- C4: discovery is best-effort — a per-entry enumeration error is
skipped without affecting the rest of the enumeration, the call still
succeeds, and the result is exactly the matching `Ok` paths in order. -/
theorem find_ext_best_effort (cache kname ext e : String)
    (fs₁ fs₂ : List (Except String (List String)))
    (hpat : patternValid (globPatternString cache kname ext) = true) :
    find_ext (fs₁ ++ .error e :: fs₂) cache kname ext
      = find_ext (fs₁ ++ fs₂) cache kname ext
    ∧ ∃ l, find_ext (fs₁ ++ .error e :: fs₂) cache kname ext = .ok l
        ∧ l = (fs₁ ++ fs₂).filterMap (fun en =>
            match en with
            | .ok p =>
                if globMatch (pathComponents cache) (kname ++ "." ++ ext) p
                then some p else none
            | .error _ => none) := by
  simp only [find_ext, if_pos hpat]
  constructor
  · simp [List.filterMap_append, List.filterMap_cons]
  · exact ⟨_, rfl, by simp [List.filterMap_append, List.filterMap_cons]⟩

/-- Witness for C4: one readable match plus one unreadable entry — the
error is skipped and the match is still returned. -/
theorem find_ext_best_effort_witness :
    patternValid (globPatternString "cache" "k" "cubin") = true
    ∧ (find_ext ([.ok ["cache", "k.cubin"]] ++ .error "denied" :: [])
          "cache" "k" "cubin"
        = find_ext ([.ok ["cache", "k.cubin"]] ++ []) "cache" "k" "cubin"
      ∧ ∃ l : List (List String),
          find_ext ([.ok ["cache", "k.cubin"]] ++ .error "denied" :: [])
            "cache" "k" "cubin" = .ok l
          ∧ l = (([.ok ["cache", "k.cubin"]] : List (Except String (List String))) ++ []).filterMap (fun en : Except String (List String) =>
              match en with
              | Except.ok p =>
                  if globMatch (pathComponents "cache") ("k" ++ "." ++ "cubin") p
                  then some p else none
              | Except.error _ => none)) :=
  ⟨by decide,
   find_ext_best_effort "cache" "k" "cubin" "denied"
     [.ok ["cache", "k.cubin"]] [] (by decide)⟩

/-- C5: discovery keeps no state across calls — the result is a function
of the filesystem passed to that call alone, and an artifact added after
a previously-empty scan is found by the next call (no negative
caching). -/
theorem find_ext_no_result_caching (cache kname ext : String)
    (fs fs' : List (Except String (List String))) (p : List String)
    (l : List (List String))
    (hpat : patternValid (globPatternString cache kname ext) = true) :
    (fs' = fs → find_ext fs' cache kname ext = find_ext fs cache kname ext)
    ∧ (find_ext fs cache kname ext = .ok l →
       globMatch (pathComponents cache) (kname ++ "." ++ ext) p = true →
       find_ext (fs ++ [.ok p]) cache kname ext = .ok (l ++ [p])) := by
  constructor
  · intro hfs; rw [hfs]
  · intro hl hm
    simp only [find_ext, if_pos hpat] at hl ⊢
    have hleq := Except.ok.inj hl
    subst hleq
    simp [List.filterMap_append, List.filterMap_cons, hm]

/-- Witness for C5: an empty filesystem returns no match; after the
matching artifact appears, the re-scan returns it. -/
theorem find_ext_no_result_caching_witness :
    patternValid (globPatternString "cache" "k" "json") = true
    ∧ find_ext [] "cache" "k" "json" = .ok []
    ∧ globMatch (pathComponents "cache") ("k" ++ "." ++ "json")
        ["cache", "k.json"] = true
    ∧ find_ext ([] ++ [.ok ["cache", "k.json"]]) "cache" "k" "json"
        = .ok ([] ++ [["cache", "k.json"]]) :=
  ⟨by decide, rfl, by decide,
   (find_ext_no_result_caching "cache" "k" "json" [] [] ["cache", "k.json"]
      [] (by decide)).2 rfl (by decide)⟩

/-- C6: `TritonKernel::cubin` and `TritonKernel::ptx` are thin
forwarding calls to discovery with the `cubin` and `ptx` extensions;
they do no decoding or filtering of their own. -/
theorem cubin_ptx_thin_forwarding (fs : FileSystem) (cache : String)
    (k : TritonKernel) :
    TritonKernel.cubin fs cache k = find_ext fs.entries cache k.name "cubin"
    ∧ TritonKernel.ptx fs cache k = find_ext fs.entries cache k.name "ptx" :=
  ⟨rfl, rfl⟩

/-- C9: `find_ext` is not total in the kernel name — a name whose
characters form an invalid glob pattern (an unclosed bracket) makes the
call abort with the pattern-parse panic, independent of the filesystem
(so before any enumeration). -/
theorem find_ext_aborts_on_invalid_pattern
    (fs : List (Except String (List String))) :
    find_ext fs "/home/user/.triton/cache" "foo[" "json"
      = .error "Unable to parse glob" := rfl

/-- C3: metadata decoding is strict — a document lacking any required
field fails with the decode diagnostic; a successfully decoded document
lacking the optional fields yields the absent value for each of them,
and a document with only the required fields does decode. -/
theorem metadata_decoding_strict :
    (∀ (o : List (String × Json)) (k : String), k ∈ requiredKeys →
        lookupField o k = none →
        ∃ e, decodeTritonMetadata (.obj o) = .error e)
    ∧ (∀ (o : List (String × Json)) (m : TritonMetadata),
        decodeTritonMetadata (.obj o) = .ok m →
        (lookupField o "ptx_version" = none → m.ptx_version = none)
        ∧ (lookupField o "extern_libs" = none → m.extern_libs = none)
        ∧ (lookupField o "debug" = none → m.debug = none)
        ∧ (lookupField o "ids_of_tensormaps" = none →
            m.ids_of_tensormaps = none))
    ∧ decodeTritonMetadata (.obj requiredDoc) = .ok requiredMetadata := by
  refine ⟨?_, ?_, rfl⟩
  · intro o k hk hnone
    cases hdec : decodeTritonMetadata (.obj o) with
    | error e => exact ⟨e, rfl⟩
    | ok m =>
        have hsome := (decode_ok_fields hdec).1 k hk
        rw [hnone] at hsome
        exact absurd hsome (by simp)
  · intro o m hm
    obtain ⟨-, hptx, hlibs, hdbg, htm⟩ := decode_ok_fields hm
    refine ⟨?_, ?_, ?_, ?_⟩
    · intro h0
      rw [optField_of_lookup_none asU32 h0] at hptx
      exact (Except.ok.inj hptx).symm
    · intro h0
      rw [optField_of_lookup_none asStringList h0] at hlibs
      exact (Except.ok.inj hlibs).symm
    · intro h0
      rw [optField_of_lookup_none asBool h0] at hdbg
      exact (Except.ok.inj hdbg).symm
    · intro h0
      rw [optField_of_lookup_none asU32List h0] at htm
      exact (Except.ok.inj htm).symm

/-- Witness for C3: a document with `shared` omitted is rejected. -/
theorem metadata_decoding_strict_witness :
    ("shared" ∈ requiredKeys ∧ lookupField docNoShared "shared" = none)
    ∧ ∃ e, decodeTritonMetadata (.obj docNoShared) = .error e :=
  ⟨⟨by decide, rfl⟩,
   metadata_decoding_strict.1 docNoShared "shared" (by decide) rfl⟩

/-- C10: the derived deserializer silently ignores unknown extra keys —
appending fields whose keys are outside the schema changes nothing about
the decode result. -/
theorem decode_ignores_unknown_fields (o extras : List (String × Json))
    (hext : ∀ q ∈ extras, q.1 ∉ schemaKeys) :
    decodeTritonMetadata (.obj (o ++ extras)) = decodeTritonMetadata (.obj o) := by
  apply decode_congr
  intro k hk
  apply lookupField_append_of_none
  apply lookupField_eq_none_of_keys
  intro q hq heq
  exact hext q hq (by rw [heq]; exact hk)

/-- Witness for C10: adding an unknown key to a complete document leaves
the (successful) decode result unchanged. -/
theorem decode_ignores_unknown_fields_witness :
    (∀ q ∈ [(("unknown_extra" : String), Json.num 7)], q.1 ∉ schemaKeys)
    ∧ decodeTritonMetadata (.obj (requiredDoc ++ [("unknown_extra", Json.num 7)]))
        = decodeTritonMetadata (.obj requiredDoc)
    ∧ decodeTritonMetadata (.obj requiredDoc) = .ok requiredMetadata :=
  ⟨by decide,
   decode_ignores_unknown_fields requiredDoc [("unknown_extra", Json.num 7)]
     (by decide),
   rfl⟩

/-- Counterexample for C7: a document whose `cluster_dims` list has two
elements decodes successfully, so decoding does not require exactly
three elements. -/
theorem cluster_dims_pair_counterexample :
    decodeTritonMetadata (.obj (docWithDims [.num 1, .num 1]))
        = .ok (metadataDims [1, 1])
    ∧ (metadataDims [1, 1]).cluster_dims.length = 2 :=
  ⟨rfl, rfl⟩

/-- Normal form of decoding `docWithDims`: only the `cluster_dims`
field is symbolic, everything else of the document reduces. -/
theorem decode_docWithDims (dims : List Json) :
    decodeTritonMetadata (.obj (docWithDims dims))
      = (asU32List (.arr dims)).bind fun ds => .ok (metadataDims ds) := rfl

theorem except_ok_bind {ε α β : Type} (a : α) (f : α → Except ε β) :
    (Except.ok a >>= f) = f a := rfl

theorem mapM_asU32_map_num (ds : List Nat) (h : ∀ d ∈ ds, d < 4294967296) :
    (ds.map fun d => Json.num (Int.ofNat d)).mapM asU32 = .ok ds := by
  induction ds with
  | nil => rfl
  | cons d rest ih =>
      have hd : (0 : Int) ≤ Int.ofNat d ∧ Int.ofNat d < 4294967296 :=
        ⟨Int.ofNat_nonneg d,
         by have := h d (List.mem_cons_self _ _)
            simp only [Int.ofNat_eq_natCast]; omega⟩
      have hok : asU32 (Json.num (Int.ofNat d)) = .ok d := by
        simp only [asU32]
        rw [if_pos hd]
        rfl
      have hrest := ih fun x hx => h x (List.mem_cons_of_mem _ hx)
      simp only [List.map_cons, List.mapM_cons, hok, hrest, except_ok_bind]
      rfl

/-- Amended C7: `cluster_dims` is decoded as an ordered sequence of
integers with no constraint on its length — a document whose
cluster-dimensions list has any number of `u32` elements decodes
successfully to exactly that list. -/
theorem cluster_dims_not_arity_checked (ds : List Nat)
    (h : ∀ d ∈ ds, d < 4294967296) :
    decodeTritonMetadata (.obj (docWithDims (ds.map fun d => Json.num (Int.ofNat d))))
      = .ok (metadataDims ds) := by
  rw [decode_docWithDims]
  rw [show asU32List (Json.arr (ds.map fun d => Json.num (Int.ofNat d)))
        = Except.ok ds from mapM_asU32_map_num ds h]
  rfl

/-- Witness for the amended C7: a four-element `cluster_dims` decodes. -/
theorem cluster_dims_not_arity_checked_witness :
    (∀ d ∈ [1, 1, 1, 1], d < 4294967296)
    ∧ decodeTritonMetadata
        (.obj (docWithDims ([1, 1, 1, 1].map fun d => Json.num (Int.ofNat d))))
      = .ok (metadataDims [1, 1, 1, 1]) :=
  ⟨by decide, cluster_dims_not_arity_checked [1, 1, 1, 1] (by decide)⟩

theorem removeQuotes_append (a b : String) :
    removeQuotes (a ++ b) = removeQuotes a ++ removeQuotes b := by
  cases a with
  | mk as =>
    cases b with
    | mk bs =>
      show String.mk ((as ++ bs).filter fun c => c != '"')
        = String.mk (as.filter fun c => c != '"')
          ++ String.mk (bs.filter fun c => c != '"')
      rw [List.filter_append]
      rfl

theorem removeQuotes_joinStrings (l : List String) :
    removeQuotes (joinStrings l) = joinStrings (l.map removeQuotes) := by
  induction l with
  | nil => rfl
  | cons s rest ih => simp [joinStrings, removeQuotes_append, ih]

/-- C8: the derived target accessor returns the elements of the stored
sequence rendered to text, concatenated in order, with every
double-quote character removed (the spec-side reading
`targetTextSpec`); the stored sequence is not modified — the accessor is
a pure function of the record. -/
theorem target_accessor_quote_stripped_concat (m : TritonMetadata) :
    m.targetText = m.targetTextSpec := by
  unfold TritonMetadata.targetText TritonMetadata.targetTextSpec
  rw [removeQuotes_joinStrings, List.map_map]
  rfl

end TritonRs
